import Mathlib

/-!
Shallow embedding of `src/april_tag_generator.py` (`generate_fiducial`).

The source is a single Python function that, given a tag bit matrix of
dimension `tag_per_side`, a physical `width` and a `print_label` flag,
computes a layout (lines 32-49) and then emits an ordered sequence of
SVG drawing calls (lines 51-143).  Real arithmetic is embedded as `ℚ`
(the spec's claims are phrased for exact arithmetic).  The bit matrix is
embedded as a function `ℕ → ℕ → ℕ` together with its dimension `n`,
mirroring the indexed access `tag[i, j]` over `range(tag_per_side)`.

The layout part (spec `computeGeometry`, component "LayoutEngine") and
the emission part (spec `buildDrawing`, component "DrawingBuilder") are
embedded as two pure functions; the file I/O of the source (SVG save,
PDF conversion) and the external bitmap generator are outside the core
and not modelled.
-/

namespace AprilTag

/-- Fill and stroke colors: the source only ever passes the strings
"white" and "black". -/
inductive Color where
  | black
  | white
deriving DecidableEq

/-- A scalar dimension together with the unit annotation it is given in
the source: `v * cm` becomes `Scalar.cm v`; a bare number (e.g. the
background rectangle position `(0, 0)`, `stroke_width=font_size`,
`r=font_size`) becomes `Scalar.plain v`; a font-size string such as
`f"{font_size}em"` becomes `Scalar.em v`. -/
inductive Scalar where
  | cm (v : ℚ)
  | plain (v : ℚ)
  | em (v : ℚ)
deriving DecidableEq

/-- Numeric value of a scalar, without its unit. -/
def Scalar.val : Scalar → ℚ
  | .cm v => v
  | .plain v => v
  | .em v => v

/-- Whether the scalar carries the centimeter unit annotation. -/
def Scalar.isCm : Scalar → Bool
  | .cm _ => true
  | _ => false

/-- Whether the scalar is an em font-size value. -/
def Scalar.isEm : Scalar → Bool
  | .em _ => true
  | _ => false

/-- Drawing primitive, one constructor per kind of `dwg.add(dwg.…)` call
in the source: `rect`, `text`, `line`, `circle`, with the arguments the
source actually passes. -/
inductive Primitive where
  | rect (pos : Scalar × Scalar) (size : Scalar × Scalar) (fill stroke : Color)
  | text (content : String) (pos : Scalar × Scalar) (fontSize : Scalar)
      (fill stroke : Color)
  | line (p1 p2 : Scalar × Scalar) (fill stroke : Color) (strokeWidth : Scalar)
  | circle (center : Scalar × Scalar) (r : Scalar) (fill stroke : Color)
      (strokeWidth : Scalar)
deriving DecidableEq

/-- Whether the primitive is a rectangle. -/
def Primitive.isRect : Primitive → Bool
  | .rect _ _ _ _ => true
  | _ => false

/-- Whether the primitive is a line. -/
def Primitive.isLine : Primitive → Bool
  | .line _ _ _ _ _ => true
  | _ => false

/-- Whether the primitive is a circle. -/
def Primitive.isCircle : Primitive → Bool
  | .circle _ _ _ _ _ => true
  | _ => false

/-- All scalar dimensions of a primitive (positions, sizes, stroke
widths, font sizes, radii), used to state the unit-uniformity claim. -/
def Primitive.dims : Primitive → List Scalar
  | .rect pos size _ _ => [pos.1, pos.2, size.1, size.2]
  | .text _ pos fs _ _ => [pos.1, pos.2, fs]
  | .line p1 p2 _ _ sw => [p1.1, p1.2, p2.1, p2.2, sw]
  | .circle c r _ _ sw => [c.1, c.2, r, sw]

/-- Label-band geometry, computed in the source only under
`if print_label:` (lines 43-49); field names follow the source's local
variable names. -/
structure LabelGeometry where
  font_size : ℚ
  caption_org : ℚ × ℚ
  axis_org : ℚ × ℚ
  y_point : ℚ × ℚ
  z_point : ℚ × ℚ
deriving DecidableEq

/-- Geometry derived by lines 32-49 of the source; field names follow
the source's local variable names (`square_side`, `fiducial_size`,
`square_size`, `april_org`).  The label-band coordinates exist exactly
when `print_label` was set, hence the `Option`. -/
structure Geometry where
  square_side : ℚ
  fiducial_size : ℚ × ℚ
  square_size : ℚ × ℚ
  april_org : ℚ × ℚ
  label : Option LabelGeometry
deriving DecidableEq

/-- Spec vocabulary: `moduleSize` is the source's `square_side`. -/
def Geometry.moduleSize (g : Geometry) : ℚ := g.square_side

/-- Spec vocabulary: `canvasSize` is the source's `fiducial_size`. -/
def Geometry.canvasSize (g : Geometry) : ℚ × ℚ := g.fiducial_size

/-- Spec vocabulary: `tagOrigin` is the source's `april_org`. -/
def Geometry.tagOrigin (g : Geometry) : ℚ × ℚ := g.april_org

/-- Spec vocabulary: `fontSize` is the source's `font_size`. -/
def LabelGeometry.fontSize (L : LabelGeometry) : ℚ := L.font_size

/-- Spec vocabulary: `captionOrigin` is the source's `caption_org`. -/
def LabelGeometry.captionOrigin (L : LabelGeometry) : ℚ × ℚ := L.caption_org

/-- Spec vocabulary: `axisOrigin` is the source's `axis_org`. -/
def LabelGeometry.axisOrigin (L : LabelGeometry) : ℚ × ℚ := L.axis_org

/-- Spec vocabulary: `yAxisEndpoint` is the source's `y_point`. -/
def LabelGeometry.yAxisEndpoint (L : LabelGeometry) : ℚ × ℚ := L.y_point

/-- Spec vocabulary: `zAxisEndpoint` is the source's `z_point`. -/
def LabelGeometry.zAxisEndpoint (L : LabelGeometry) : ℚ × ℚ := L.z_point

/-- Layout computation, embedding lines 32-49 of the source:
`square_side = width / (tag_per_side + 2)`; `height` gains `2 *
square_side` when a label is printed; `april_org = (square_side,
square_side)`; and, only under `print_label`, the font size and the
caption/axis coordinates (the numpy vector additions for `y_point` and
`z_point` are written out componentwise). -/
def computeGeometry (n : ℕ) (width : ℚ) (labelEnabled : Bool) : Geometry :=
  let square_side : ℚ := width / (n + 2)
  let height : ℚ := if labelEnabled then width + 2 * square_side else width
  { square_side := square_side
    fiducial_size := (width, height)
    square_size := (square_side, square_side)
    april_org := (square_side, square_side)
    label :=
      if labelEnabled then
        let font_size : ℚ := width / 5
        let caption_org : ℚ × ℚ := (square_side * 1.25, width + square_side * 1.25)
        let axis_org : ℚ × ℚ := (width - square_side * 2, width + square_side * 1.25)
        let y_point : ℚ × ℚ := (axis_org.1 + 0.75 * square_side, axis_org.2 + 0)
        let z_point : ℚ × ℚ := (axis_org.1 + 0, axis_org.2 + (-0.75 * square_side))
        some { font_size := font_size
               caption_org := caption_org
               axis_org := axis_org
               y_point := y_point
               z_point := z_point }
      else none }

/-- Full-canvas background rectangle, lines 54-61 of the source: the
position is the bare pair `(0, 0)` while the size is `fiducial_size`
with the `cm` annotation. -/
def backgroundRect (g : Geometry) : Primitive :=
  .rect (.plain 0, .plain 0) (.cm g.fiducial_size.1, .cm g.fiducial_size.2)
    .white .white

/-- Tag-block background rectangle, lines 62-69 of the source: position
`april_org`, size `tag_per_side * square_size`, black. -/
def tagBlockRect (n : ℕ) (g : Geometry) : Primitive :=
  .rect (.cm g.april_org.1, .cm g.april_org.2)
    (.cm (n * g.square_size.1), .cm (n * g.square_size.2)) .black .black

/-- Light-module rectangles, lines 71-83 of the source: the double loop
`for i in range(tag_per_side): for j in range(tag_per_side)` emits a
white square for each cell with `tag[i, j] == 255`.  Note the source
computes both coordinates from index 0 of the vectors:
`x = april_org[0] + square_size[0] * j` and
`y = april_org[0] + square_size[0] * i`. -/
def lightModules (n : ℕ) (tag : ℕ → ℕ → ℕ) (g : Geometry) : List Primitive :=
  (List.range n).flatMap fun i =>
    (List.range n).filterMap fun j =>
      if tag i j == 255 then
        let x : ℚ := g.april_org.1 + g.square_size.1 * j
        let y : ℚ := g.april_org.1 + g.square_size.1 * i
        some (.rect (.cm x, .cm y) (.cm g.square_size.1, .cm g.square_size.2)
          .white .white)
      else none

/-- Label-band primitives, lines 85-143 of the source, in emission
order: the caption text `f"id: {tag_id}"`, the y-axis line and its
label, the z-axis line and its label, and the axis-origin circle.
Stroke widths and the circle radius are passed as bare numbers, font
sizes as em strings. -/
def labelPrimitives (g : Geometry) (tag_id : ℤ) : List Primitive :=
  match g.label with
  | none => []
  | some L =>
    [ .text (r"id: " ++ toString tag_id) (.cm L.caption_org.1, .cm L.caption_org.2)
        (.em L.font_size) .black .black,
      .line (.cm L.axis_org.1, .cm L.axis_org.2) (.cm L.y_point.1, .cm L.y_point.2)
        .black .black (.plain L.font_size),
      .text (r"y") (.cm (L.y_point.1 * 1.04), .cm L.y_point.2)
        (.em (L.font_size * 0.7)) .black .black,
      .line (.cm L.axis_org.1, .cm L.axis_org.2) (.cm L.z_point.1, .cm L.z_point.2)
        .black .black (.plain L.font_size),
      .text (r"z") (.cm (L.z_point.1 * 0.9), .cm (L.z_point.2 * 1.05))
        (.em (L.font_size * 0.7)) .black .black,
      .circle (.cm L.axis_org.1, .cm L.axis_org.2) (.plain L.font_size)
        .black .black (.plain L.font_size) ]

/-- The ordered primitive sequence emitted by lines 51-143 of the
source: background rectangle, tag-block rectangle, the light-module
rectangles, and, when `print_label`, the label-band primitives. -/
def buildDrawing (n : ℕ) (tag : ℕ → ℕ → ℕ) (g : Geometry) (tag_id : ℤ)
    (labelEnabled : Bool) : List Primitive :=
  [backgroundRect g, tagBlockRect n g] ++ lightModules n tag g ++
    (if labelEnabled then labelPrimitives g tag_id else [])

/-- Number of light cells of the `n × n` bit matrix, i.e. of pairs
`(i, j)` with `i, j < n` and `tag i j = 255`. -/
def lightCellCount (n : ℕ) (tag : ℕ → ℕ → ℕ) : ℕ :=
  ((List.range n).map fun i =>
    ((List.range n).filter fun j => tag i j == 255).length).sum

/-- The `n = 4` scenario matrix of the spec: a single light cell at
`(0, 0)`, all other cells dark. -/
def scenarioTag : ℕ → ℕ → ℕ := fun i j => if i == 0 && j == 0 then 255 else 0

/-- Numeric value of the x-coordinate of a primitive's position
(respectively its first point for a line, its center for a circle). -/
def Primitive.posXVal : Primitive → ℚ
  | .rect pos _ _ _ => pos.1.val
  | .text _ pos _ _ _ => pos.1.val
  | .line p1 _ _ _ _ => p1.1.val
  | .circle c _ _ _ _ => c.1.val

/-- Numeric value of the y-coordinate of a primitive's position. -/
def Primitive.posYVal : Primitive → ℚ
  | .rect pos _ _ _ => pos.2.val
  | .text _ pos _ _ _ => pos.2.val
  | .line p1 _ _ _ _ => p1.2.val
  | .circle c _ _ _ _ => c.2.val

/-- Whether the primitive is a text primitive with the given content
whose position is within `tol` of `(cx, cy)` (numeric scalar values,
ignoring units).  Used to formalize the spec's "approximately equal"
caption placement. -/
def isCaptionNear (content : String) (cx cy tol : ℚ) (p : Primitive) : Prop :=
  match p with
  | .text c (px, py) _ _ _ =>
      c = content ∧ |px.val - cx| ≤ tol ∧ |py.val - cy| ≤ tol
  | _ => False

/-- Whether the primitive is a text primitive with exactly the given
content. -/
def hasTextContent (c : String) (p : Primitive) : Prop :=
  match p with
  | .text c' _ _ _ _ => c' = c
  | _ => False

/-- The unit pattern the source actually follows for each primitive
kind: rectangle positions and sizes, text positions, line endpoints
and circle centers carry the `cm` annotation, while line stroke
widths, circle radii and stroke widths are bare numbers and text font
sizes are em values, never `cm`.  The one primitive that does not obey
this pattern, the full-canvas background rectangle with its bare
`(0, 0)` position, is exempted explicitly in the theorem that uses
this predicate. -/
def unitDiscipline : Primitive → Prop
  | .rect pos size _ _ => pos.1.isCm = true ∧ pos.2.isCm = true ∧
      size.1.isCm = true ∧ size.2.isCm = true
  | .text _ pos fs _ _ => pos.1.isCm = true ∧ pos.2.isCm = true ∧
      fs.isEm = true ∧ fs.isCm = false
  | .line p1 p2 _ _ sw => p1.1.isCm = true ∧ p1.2.isCm = true ∧
      p2.1.isCm = true ∧ p2.2.isCm = true ∧ sw.isCm = false
  | .circle c r _ _ sw => c.1.isCm = true ∧ c.2.isCm = true ∧
      r.isCm = false ∧ sw.isCm = false

/-- Concrete label geometry used to instantiate hypotheses of general
theorems. -/
def witnessLabel : LabelGeometry :=
  { font_size := 2
    caption_org := (1, 4)
    axis_org := (2, 4)
    y_point := (3, 4)
    z_point := (2, 3) }

/-- Concrete geometry (with a label band) used to instantiate
hypotheses of general theorems. -/
def witnessGeometry : Geometry :=
  { square_side := 1
    fiducial_size := (3, 5)
    square_size := (1, 1)
    april_org := (1, 1)
    label := some witnessLabel }

/-- Concrete all-light bit matrix used to instantiate hypotheses of
general theorems. -/
def witnessTag : ℕ → ℕ → ℕ := fun _ _ => 255

/-- A `filterMap` whose function is an if-then-else with a `some` branch
is a `filter` followed by a `map`. -/
theorem filterMap_ite_eq_filter_map {α β : Type} (p : α → Bool) (f : α → β)
    (l : List α) :
    (l.filterMap fun a => if p a then some (f a) else none) =
      (l.filter p).map f := by
  induction l with
  | nil => rfl
  | cons a t ih =>
    cases h : p a <;> simp [List.filterMap_cons, List.filter_cons, h, ih]

/-- Membership characterization for `lightModules`: a primitive is
emitted by the double loop exactly when it is the white square of some
light cell `(i, j)` with `i, j < n`. -/
theorem mem_lightModules_iff (n : ℕ) (tag : ℕ → ℕ → ℕ) (g : Geometry)
    (p : Primitive) :
    p ∈ lightModules n tag g ↔
      ∃ i < n, ∃ j < n, tag i j = 255 ∧
        p = Primitive.rect
          (.cm (g.april_org.1 + g.square_size.1 * j),
           .cm (g.april_org.1 + g.square_size.1 * i))
          (.cm g.square_size.1, .cm g.square_size.2) .white .white := by
  simp only [lightModules, List.mem_flatMap, List.mem_filterMap, List.mem_range]
  constructor
  · rintro ⟨i, hi, j, hj, hij⟩
    by_cases h : tag i j == 255
    · rw [if_pos h] at hij
      exact ⟨i, hi, j, hj, by simpa using h, (Option.some.inj hij).symm⟩
    · rw [if_neg h] at hij
      cases hij
  · rintro ⟨i, hi, j, hj, ht, rfl⟩
    exact ⟨i, hi, j, hj, by rw [if_pos (by simpa using ht)]⟩

/-- Every primitive emitted by the light-module loop is a rectangle. -/
theorem isRect_of_mem_lightModules (n : ℕ) (tag : ℕ → ℕ → ℕ) (g : Geometry)
    (p : Primitive) (hp : p ∈ lightModules n tag g) : p.isRect = true := by
  rw [mem_lightModules_iff] at hp
  obtain ⟨i, _, j, _, _, rfl⟩ := hp
  rfl

/-- C3: the geometry places the tag block at
`tagOrigin = (moduleSize, moduleSize)`; the second primitive emitted by
`buildDrawing` is the tag-block background rectangle at exactly that
position with size `(n*moduleSize, n*moduleSize)`; and the block is
inscribed with one module of margin on the left and right
(`moduleSize + n*moduleSize + moduleSize = width = canvasSize.width`)
and on top and below (the same sum bounds the canvas height). -/
theorem tagBlock_inscribed (n : ℕ) (width : ℚ) (labelEnabled : Bool)
    (tag : ℕ → ℕ → ℕ) (tag_id : ℤ) (g : Geometry)
    (hg : g = computeGeometry n width labelEnabled)
    (hn : 1 ≤ n) (hw : 0 < width) :
    g.tagOrigin = (g.moduleSize, g.moduleSize) ∧
    (∃ rest, buildDrawing n tag g tag_id labelEnabled =
      backgroundRect g ::
        Primitive.rect (.cm g.tagOrigin.1, .cm g.tagOrigin.2)
          (.cm (n * g.moduleSize), .cm (n * g.moduleSize)) .black .black ::
        rest) ∧
    0 < g.moduleSize ∧
    g.moduleSize + n * g.moduleSize + g.moduleSize = width ∧
    g.canvasSize.1 = width ∧
    width ≤ g.canvasSize.2 := by
  subst hg
  have h2 : ((n : ℚ) + 2) ≠ 0 := by positivity
  have hm : 0 < width / ((n : ℚ) + 2) := by positivity
  refine ⟨rfl, ⟨lightModules n tag _ ++
    (if labelEnabled then labelPrimitives _ tag_id else []), rfl⟩, hm, ?_, rfl, ?_⟩
  · show width / ((n : ℚ) + 2) + n * (width / ((n : ℚ) + 2))
      + width / ((n : ℚ) + 2) = width
    field_simp
    ring
  · show width ≤ (if labelEnabled then width + 2 * (width / ((n : ℚ) + 2))
      else width)
    cases labelEnabled
    · simp
    · simp only [if_pos]
      linarith

/-- Witness for C3 at `n = 4`, `width = 5`, label enabled. -/
theorem tagBlock_inscribed_witness :
    (computeGeometry 4 5 true).tagOrigin =
      ((computeGeometry 4 5 true).moduleSize,
       (computeGeometry 4 5 true).moduleSize) ∧
    (∃ rest, buildDrawing 4 scenarioTag (computeGeometry 4 5 true) 7 true =
      backgroundRect (computeGeometry 4 5 true) ::
        Primitive.rect (.cm (computeGeometry 4 5 true).tagOrigin.1,
            .cm (computeGeometry 4 5 true).tagOrigin.2)
          (.cm ((4 : ℕ) * (computeGeometry 4 5 true).moduleSize),
           .cm ((4 : ℕ) * (computeGeometry 4 5 true).moduleSize)) .black .black ::
        rest) ∧
    0 < (computeGeometry 4 5 true).moduleSize ∧
    (computeGeometry 4 5 true).moduleSize
      + (4 : ℕ) * (computeGeometry 4 5 true).moduleSize
      + (computeGeometry 4 5 true).moduleSize = 5 ∧
    (computeGeometry 4 5 true).canvasSize.1 = 5 ∧
    (5 : ℚ) ≤ (computeGeometry 4 5 true).canvasSize.2 :=
  tagBlock_inscribed 4 5 true scenarioTag 7 (computeGeometry 4 5 true) rfl
    (by norm_num) (by norm_num)

/-- C4: the light-module rectangles are exactly one white square of
size `(moduleSize, moduleSize)` at `tagOrigin + (j*moduleSize,
i*moduleSize)` per light cell `(i, j)`, emitted in row-major order
(`i` outer, `j` inner), and their count equals the number of light
cells. -/
theorem lightModules_row_major (n : ℕ) (width : ℚ) (labelEnabled : Bool)
    (tag : ℕ → ℕ → ℕ) (g : Geometry)
    (hg : g = computeGeometry n width labelEnabled) :
    lightModules n tag g =
      ((List.range n).flatMap fun i =>
        ((List.range n).filter fun j => tag i j == 255).map fun (j : ℕ) =>
          Primitive.rect
            (.cm (g.tagOrigin.1 + (j : ℚ) * g.moduleSize),
             .cm (g.tagOrigin.2 + (i : ℚ) * g.moduleSize))
            (.cm g.moduleSize, .cm g.moduleSize) .white .white) ∧
    (lightModules n tag g).length = lightCellCount n tag := by
  have hrw : lightModules n tag g =
      (List.range n).flatMap fun i =>
        ((List.range n).filter fun j => tag i j == 255).map fun (j : ℕ) =>
          Primitive.rect
            (.cm (g.april_org.1 + g.square_size.1 * j),
             .cm (g.april_org.1 + g.square_size.1 * i))
            (.cm g.square_size.1, .cm g.square_size.2) .white .white := by
    simp only [lightModules, filterMap_ite_eq_filter_map]
  constructor
  · rw [hrw]
    subst hg
    refine congrArg (List.range n).flatMap (funext fun i => ?_)
    refine List.map_congr_left fun j hj => ?_
    simp [computeGeometry, Geometry.tagOrigin, Geometry.moduleSize, mul_comm]
  · rw [hrw]
    simp [List.length_flatMap, lightCellCount, Function.comp_def]

/-- Witness for C4 at `n = 4`, `width = 5` with the scenario matrix. -/
theorem lightModules_row_major_witness :
    lightModules 4 scenarioTag (computeGeometry 4 5 true) =
      ((List.range 4).flatMap fun i =>
        ((List.range 4).filter fun j => scenarioTag i j == 255).map fun (j : ℕ) =>
          Primitive.rect
            (.cm ((computeGeometry 4 5 true).tagOrigin.1
                + (j : ℚ) * (computeGeometry 4 5 true).moduleSize),
             .cm ((computeGeometry 4 5 true).tagOrigin.2
                + (i : ℚ) * (computeGeometry 4 5 true).moduleSize))
            (.cm (computeGeometry 4 5 true).moduleSize,
             .cm (computeGeometry 4 5 true).moduleSize) .white .white) ∧
    (lightModules 4 scenarioTag (computeGeometry 4 5 true)).length =
      lightCellCount 4 scenarioTag :=
  lightModules_row_major 4 5 true scenarioTag (computeGeometry 4 5 true) rfl

/-- C1: for every matrix dimension `n ≥ 1` and physical `width > 0`,
the module size computed by `computeGeometry` equals `width / (n + 2)`,
and `moduleSize * (n + 2) = width` exactly (arithmetic over `ℚ`). -/
theorem moduleSize_times_n_plus_two_eq_width (n : ℕ) (width : ℚ)
    (labelEnabled : Bool) (hn : 1 ≤ n) (hw : 0 < width) :
    (computeGeometry n width labelEnabled).moduleSize = width / (n + 2) ∧
    (computeGeometry n width labelEnabled).moduleSize * (n + 2) = width := by
  have h2 : ((n : ℚ) + 2) ≠ 0 := by positivity
  refine ⟨rfl, ?_⟩
  show width / ((n : ℚ) + 2) * ((n : ℚ) + 2) = width
  field_simp

/-- Witness for C1 at `n = 4`, `width = 5`. -/
theorem moduleSize_times_n_plus_two_eq_width_witness :
    (computeGeometry 4 5 true).moduleSize = 5 / (((4 : ℕ) : ℚ) + 2) ∧
    (computeGeometry 4 5 true).moduleSize * (((4 : ℕ) : ℚ) + 2) = 5 :=
  moduleSize_times_n_plus_two_eq_width 4 5 true (by norm_num) (by norm_num)

/-- C2: for every `n ≥ 1` and `width > 0`, the canvas size is
`(width, width + 2*moduleSize)` when the label is enabled and
`(width, width)` otherwise; its width component is `width` in both
cases. -/
theorem canvasSize_characterization (n : ℕ) (width : ℚ)
    (labelEnabled : Bool) (hn : 1 ≤ n) (hw : 0 < width) :
    (computeGeometry n width labelEnabled).canvasSize =
      (if labelEnabled then
        (width, width + 2 * (computeGeometry n width labelEnabled).moduleSize)
       else (width, width)) ∧
    (computeGeometry n width labelEnabled).canvasSize.1 = width := by
  cases labelEnabled <;>
    simp [computeGeometry, Geometry.canvasSize, Geometry.moduleSize]

/-- Witness for C2 at `n = 4`, `width = 5`, label enabled. -/
theorem canvasSize_characterization_witness :
    (computeGeometry 4 5 true).canvasSize =
      (if true then (5, 5 + 2 * (computeGeometry 4 5 true).moduleSize)
       else (5, 5)) ∧
    (computeGeometry 4 5 true).canvasSize.1 = 5 :=
  canvasSize_characterization 4 5 true (by norm_num) (by norm_num)

/-- C6: for every `n ≥ 1` and `width > 0` with the label enabled,
`computeGeometry` yields `fontSize = width / 5`,
`captionOrigin = (moduleSize*1.25, width + moduleSize*1.25)`,
`axisOrigin = (width - moduleSize*2, width + moduleSize*1.25)`,
`yAxisEndpoint = axisOrigin + (0.75*moduleSize, 0)` and
`zAxisEndpoint = axisOrigin + (0, -0.75*moduleSize)`. -/
theorem labelGeometry_characterization (n : ℕ) (width : ℚ)
    (hn : 1 ≤ n) (hw : 0 < width) :
    ∃ L, (computeGeometry n width true).label = some L ∧
      L.fontSize = width / 5 ∧
      L.captionOrigin = ((computeGeometry n width true).moduleSize * 1.25,
        width + (computeGeometry n width true).moduleSize * 1.25) ∧
      L.axisOrigin = (width - (computeGeometry n width true).moduleSize * 2,
        width + (computeGeometry n width true).moduleSize * 1.25) ∧
      L.yAxisEndpoint = (L.axisOrigin.1 + 0.75 * (computeGeometry n width true).moduleSize,
        L.axisOrigin.2) ∧
      L.zAxisEndpoint = (L.axisOrigin.1,
        L.axisOrigin.2 - 0.75 * (computeGeometry n width true).moduleSize) := by
  refine ⟨_, rfl, rfl, rfl, rfl, ?_, ?_⟩ <;>
    simp [computeGeometry, Geometry.moduleSize, LabelGeometry.axisOrigin,
      LabelGeometry.yAxisEndpoint, LabelGeometry.zAxisEndpoint, Prod.ext_iff] <;>
    ring

/-- Witness for C6 at `n = 4`, `width = 5`. -/
theorem labelGeometry_characterization_witness :
    ∃ L, (computeGeometry 4 5 true).label = some L ∧
      L.fontSize = 5 / 5 ∧
      L.captionOrigin = ((computeGeometry 4 5 true).moduleSize * 1.25,
        5 + (computeGeometry 4 5 true).moduleSize * 1.25) ∧
      L.axisOrigin = (5 - (computeGeometry 4 5 true).moduleSize * 2,
        5 + (computeGeometry 4 5 true).moduleSize * 1.25) ∧
      L.yAxisEndpoint = (L.axisOrigin.1 + 0.75 * (computeGeometry 4 5 true).moduleSize,
        L.axisOrigin.2) ∧
      L.zAxisEndpoint = (L.axisOrigin.1,
        L.axisOrigin.2 - 0.75 * (computeGeometry 4 5 true).moduleSize) :=
  labelGeometry_characterization 4 5 (by norm_num) (by norm_num)

/-- C5: with the label enabled the primitive sequence is, in order, the
full-canvas background rectangle, the tag-block rectangle, the
light-module rectangles, the caption text `"id: {tagId}"` at
`captionOrigin` sized `fontSize` (em), the y-axis line followed by the
text `"y"`, the z-axis line followed by the text `"z"`, and a filled
circle at `axisOrigin` with radius `fontSize`; with the label disabled
every emitted primitive is a rectangle (no text, line or circle). -/
theorem emission_order (n : ℕ) (tag : ℕ → ℕ → ℕ) (g : Geometry)
    (tag_id : ℤ) (L : LabelGeometry) (hL : g.label = some L) :
    buildDrawing n tag g tag_id true =
      [backgroundRect g, tagBlockRect n g] ++ lightModules n tag g ++
        [Primitive.text (r"id: " ++ toString tag_id)
           (.cm L.captionOrigin.1, .cm L.captionOrigin.2)
           (.em L.fontSize) .black .black,
         Primitive.line (.cm L.axisOrigin.1, .cm L.axisOrigin.2)
           (.cm L.yAxisEndpoint.1, .cm L.yAxisEndpoint.2)
           .black .black (.plain L.fontSize),
         Primitive.text (r"y")
           (.cm (L.yAxisEndpoint.1 * 1.04), .cm L.yAxisEndpoint.2)
           (.em (L.fontSize * 0.7)) .black .black,
         Primitive.line (.cm L.axisOrigin.1, .cm L.axisOrigin.2)
           (.cm L.zAxisEndpoint.1, .cm L.zAxisEndpoint.2)
           .black .black (.plain L.fontSize),
         Primitive.text (r"z")
           (.cm (L.zAxisEndpoint.1 * 0.9), .cm (L.zAxisEndpoint.2 * 1.05))
           (.em (L.fontSize * 0.7)) .black .black,
         Primitive.circle (.cm L.axisOrigin.1, .cm L.axisOrigin.2)
           (.plain L.fontSize) .black .black (.plain L.fontSize)] ∧
    (∀ p ∈ buildDrawing n tag g tag_id false, p.isRect = true) := by
  constructor
  · simp [buildDrawing, labelPrimitives, hL, LabelGeometry.captionOrigin,
      LabelGeometry.axisOrigin, LabelGeometry.yAxisEndpoint,
      LabelGeometry.zAxisEndpoint, LabelGeometry.fontSize]
  · intro p hp
    rw [buildDrawing, if_neg (by simp), List.append_nil] at hp
    rcases List.mem_append.mp hp with h | h
    · rcases List.mem_cons.mp h with rfl | h
      · rfl
      · rcases List.mem_cons.mp h with rfl | h
        · rfl
        · simp at h
    · exact isRect_of_mem_lightModules n tag g p h

/-- Witness for C5 on a concrete geometry with a label band. -/
theorem emission_order_witness :
    buildDrawing 1 witnessTag witnessGeometry 7 true =
      [backgroundRect witnessGeometry, tagBlockRect 1 witnessGeometry] ++
        lightModules 1 witnessTag witnessGeometry ++
        [Primitive.text (r"id: " ++ toString (7 : ℤ))
           (.cm witnessLabel.captionOrigin.1, .cm witnessLabel.captionOrigin.2)
           (.em witnessLabel.fontSize) .black .black,
         Primitive.line (.cm witnessLabel.axisOrigin.1, .cm witnessLabel.axisOrigin.2)
           (.cm witnessLabel.yAxisEndpoint.1, .cm witnessLabel.yAxisEndpoint.2)
           .black .black (.plain witnessLabel.fontSize),
         Primitive.text (r"y")
           (.cm (witnessLabel.yAxisEndpoint.1 * 1.04), .cm witnessLabel.yAxisEndpoint.2)
           (.em (witnessLabel.fontSize * 0.7)) .black .black,
         Primitive.line (.cm witnessLabel.axisOrigin.1, .cm witnessLabel.axisOrigin.2)
           (.cm witnessLabel.zAxisEndpoint.1, .cm witnessLabel.zAxisEndpoint.2)
           .black .black (.plain witnessLabel.fontSize),
         Primitive.text (r"z")
           (.cm (witnessLabel.zAxisEndpoint.1 * 0.9), .cm (witnessLabel.zAxisEndpoint.2 * 1.05))
           (.em (witnessLabel.fontSize * 0.7)) .black .black,
         Primitive.circle (.cm witnessLabel.axisOrigin.1, .cm witnessLabel.axisOrigin.2)
           (.plain witnessLabel.fontSize) .black .black (.plain witnessLabel.fontSize)] ∧
    (∀ p ∈ buildDrawing 1 witnessTag witnessGeometry 7 false, p.isRect = true) :=
  emission_order 1 witnessTag witnessGeometry 7 witnessLabel rfl

/-- C9: `buildDrawing` is a pure function of its arguments: two calls
on identical matrix, geometry, tag id and label flag return identical
primitive sequences, and the sequence is the whole result of the
computation. -/
theorem buildDrawing_deterministic (n₁ n₂ : ℕ) (t₁ t₂ : ℕ → ℕ → ℕ)
    (g₁ g₂ : Geometry) (id₁ id₂ : ℤ) (l₁ l₂ : Bool)
    (hn : n₁ = n₂) (ht : t₁ = t₂) (hg : g₁ = g₂) (hid : id₁ = id₂)
    (hl : l₁ = l₂) :
    buildDrawing n₁ t₁ g₁ id₁ l₁ = buildDrawing n₂ t₂ g₂ id₂ l₂ := by
  subst hn; subst ht; subst hg; subst hid; subst hl; rfl

/-- Witness for C9 on concrete inputs. -/
theorem buildDrawing_deterministic_witness :
    buildDrawing 1 witnessTag witnessGeometry 7 true =
      buildDrawing 1 witnessTag witnessGeometry 7 true :=
  buildDrawing_deterministic 1 1 witnessTag witnessTag witnessGeometry
    witnessGeometry 7 7 true true rfl rfl rfl rfl rfl

/-- Cancellation helper: cell coordinates are recoverable from module
positions when the module size is positive. -/
theorem coord_cancel (m : ℚ) (hm : 0 < m) (j j' : ℕ)
    (h : m + m * (j : ℚ) = m + m * (j' : ℚ)) : j = j' := by
  have h2 : m * (j : ℚ) = m * (j' : ℚ) := by linarith
  have h3 : (j : ℚ) = (j' : ℚ) := mul_left_cancel₀ hm.ne' h2
  exact_mod_cast h3

/-- C10: for `i, j < n` and `width > 0`, the white module square of
cell `(i, j)` is emitted if and only if the stored value equals `255`
exactly; any other value (`0` or intermediate) produces no light
rectangle for that cell, leaving it covered by the dark tag-block
background. -/
theorem lightModule_iff_value_255 (n : ℕ) (width : ℚ) (labelEnabled : Bool)
    (tag : ℕ → ℕ → ℕ) (g : Geometry) (i j : ℕ)
    (hg : g = computeGeometry n width labelEnabled) (hw : 0 < width)
    (hi : i < n) (hj : j < n) :
    (Primitive.rect
        (.cm (g.tagOrigin.1 + g.moduleSize * j),
         .cm (g.tagOrigin.2 + g.moduleSize * i))
        (.cm g.moduleSize, .cm g.moduleSize) .white .white
      ∈ lightModules n tag g) ↔ tag i j = 255 := by
  subst hg
  have hm : (0 : ℚ) < width / ((n : ℚ) + 2) := by positivity
  rw [mem_lightModules_iff]
  constructor
  · rintro ⟨i', hi', j', hj', h255, heq⟩
    have hx := congrArg Primitive.posXVal heq
    have hy := congrArg Primitive.posYVal heq
    simp only [Primitive.posXVal, Primitive.posYVal, Scalar.val,
      computeGeometry, Geometry.tagOrigin, Geometry.moduleSize] at hx hy
    rwa [coord_cancel _ hm j j' hx, coord_cancel _ hm i i' hy]
  · intro h255
    exact ⟨i, hi, j, hj, h255, rfl⟩

/-- Witness for C10 at the scenario input: cell `(0, 0)` is light. -/
theorem lightModule_iff_value_255_witness :
    (Primitive.rect
        (.cm ((computeGeometry 4 5 true).tagOrigin.1
          + (computeGeometry 4 5 true).moduleSize * (0 : ℕ)),
         .cm ((computeGeometry 4 5 true).tagOrigin.2
          + (computeGeometry 4 5 true).moduleSize * (0 : ℕ)))
        (.cm (computeGeometry 4 5 true).moduleSize,
         .cm (computeGeometry 4 5 true).moduleSize) .white .white
      ∈ lightModules 4 scenarioTag (computeGeometry 4 5 true)) ↔
      scenarioTag 0 0 = 255 :=
  lightModule_iff_value_255 4 5 true scenarioTag (computeGeometry 4 5 true)
    0 0 rfl (by norm_num) (by norm_num) (by norm_num)

/-- The scenario drawing written out: `n = 4`, one light cell at
`(0, 0)`, `width = 5`, label enabled, `tagId = 7`, so that
`moduleSize = 5/6`, caption origin `(25/24, 145/24)`, axis origin
`(10/3, 145/24)`, y-axis endpoint `(95/24, 145/24)`, z-axis endpoint
`(10/3, 65/12)` and font size `1`. -/
theorem scenario_drawing_eq :
    buildDrawing 4 scenarioTag (computeGeometry 4 5 true) 7 true =
      [ .rect (.plain 0, .plain 0) (.cm 5, .cm (20/3)) .white .white,
        .rect (.cm (5/6), .cm (5/6)) (.cm (10/3), .cm (10/3)) .black .black,
        .rect (.cm (5/6), .cm (5/6)) (.cm (5/6), .cm (5/6)) .white .white,
        .text (r"id: 7") (.cm (25/24), .cm (145/24)) (.em 1) .black .black,
        .line (.cm (10/3), .cm (145/24)) (.cm (95/24), .cm (145/24))
          .black .black (.plain 1),
        .text (r"y") (.cm (247/60), .cm (145/24)) (.em (7/10)) .black .black,
        .line (.cm (10/3), .cm (145/24)) (.cm (10/3), .cm (65/12))
          .black .black (.plain 1),
        .text (r"z") (.cm 3, .cm (91/16)) (.em (7/10)) .black .black,
        .circle (.cm (10/3), .cm (145/24)) (.plain 1) .black .black (.plain 1) ] := by
  have hs : ("id: " ++ toString (7 : ℤ)) = r"id: 7" := rfl
  norm_num [buildDrawing, computeGeometry, backgroundRect, tagBlockRect,
    lightModules, labelPrimitives, scenarioTag, List.range_succ,
    List.filterMap_cons, hs]

/-- C7 counterexample: in the scenario `n = 4`, one light cell at
`(0, 0)`, `width = 5`, label enabled, `tagId = 7`, no text primitive
with content "id: 7" sits within `0.1` of the spec's claimed caption
position `(1.0417, 5.8333)`: the code places the caption at
`(25/24, 145/24) ≈ (1.0417, 6.0417)`, whose y-coordinate is
`width + moduleSize*1.25`, not the claimed value. -/
theorem caption_position_counterexample :
    ¬ (∃ p ∈ buildDrawing 4 scenarioTag (computeGeometry 4 5 true) 7 true,
        isCaptionNear (r"id: 7") 1.0417 5.8333 0.1 p) := by
  rw [scenario_drawing_eq]
  simp only [List.mem_cons, List.not_mem_nil, or_false]
  rintro ⟨p, hp, hnear⟩
  rcases hp with rfl | rfl | rfl | rfl | rfl | rfl | rfl | rfl | rfl <;>
    simp only [isCaptionNear, Scalar.val] at hnear
  · obtain ⟨-, -, hy⟩ := hnear
    rw [abs_le] at hy
    norm_num at hy
  · exact (by decide : (r"y" : String) ≠ r"id: 7") hnear.1
  · exact (by decide : (r"z" : String) ≠ r"id: 7") hnear.1

/-- C7 amended: in the same scenario the output contains a text
primitive with content "id: 7" at the caption origin approximately
`(1.0417, 6.0417)` (within `0.001`; exactly `(25/24, 145/24)`), plus
exactly two line primitives, two short text primitives "y" and "z",
and exactly one circle, placed at the axis origin `(10/3, 145/24)`. -/
theorem caption_and_axes_scenario :
    (∃ p ∈ buildDrawing 4 scenarioTag (computeGeometry 4 5 true) 7 true,
        isCaptionNear (r"id: 7") 1.0417 6.0417 0.001 p) ∧
    ((buildDrawing 4 scenarioTag (computeGeometry 4 5 true) 7 true).filter
        Primitive.isLine).length = 2 ∧
    (∃ p ∈ buildDrawing 4 scenarioTag (computeGeometry 4 5 true) 7 true,
        hasTextContent (r"y") p) ∧
    (∃ p ∈ buildDrawing 4 scenarioTag (computeGeometry 4 5 true) 7 true,
        hasTextContent (r"z") p) ∧
    ((buildDrawing 4 scenarioTag (computeGeometry 4 5 true) 7 true).filter
        Primitive.isCircle).length = 1 ∧
    (∃ p ∈ buildDrawing 4 scenarioTag (computeGeometry 4 5 true) 7 true,
        p = Primitive.circle (.cm (10/3), .cm (145/24)) (.plain 1)
          .black .black (.plain 1)) := by
  rw [scenario_drawing_eq]
  refine ⟨?_, ?_, ?_, ?_, ?_, ?_⟩
  · exact ⟨Primitive.text (r"id: 7") (.cm (25/24), .cm (145/24)) (.em 1)
      .black .black, by simp,
      by norm_num [isCaptionNear, Scalar.val, abs_le]⟩
  · simp [List.filter_cons, Primitive.isLine]
  · exact ⟨Primitive.text (r"y") (.cm (247/60), .cm (145/24)) (.em (7/10))
      .black .black, by simp, rfl⟩
  · exact ⟨Primitive.text (r"z") (.cm 3, .cm (91/16)) (.em (7/10))
      .black .black, by simp, rfl⟩
  · simp [List.filter_cons, Primitive.isCircle]
  · exact ⟨Primitive.circle (.cm (10/3), .cm (145/24)) (.plain 1)
      .black .black (.plain 1), by simp, rfl⟩

/-- C8 counterexample: the centimeter conversion is not applied to
every scalar dimension of every primitive: in the scenario output some
primitive has a scalar dimension without the `cm` annotation (e.g. the
circle's radius and stroke width, the lines' stroke widths, the texts'
em font sizes, the background rectangle's bare `(0, 0)` position). -/
theorem unit_uniformity_counterexample :
    ¬ (∀ p ∈ buildDrawing 4 scenarioTag (computeGeometry 4 5 true) 7 true,
        ∀ s ∈ Primitive.dims p, s.isCm = true) := by
  decide

/-- C8 amended: the conversion is applied per dimension, not uniformly
per primitive: the background rectangle is emitted with the bare
position `(0, 0)` and its size in `cm`; every other emitted primitive
has its position in `cm` — rectangle positions and sizes, text
positions, line endpoints, circle centers — but every line stroke
width, circle radius and circle stroke width is a bare number and
every text font size is an em value, so for text, line and circle
primitives the `cm` conversion covers only some of the primitive's
dimensions. -/
theorem unit_annotation_characterization (n : ℕ) (tag : ℕ → ℕ → ℕ)
    (g : Geometry) (tag_id : ℤ) (labelEnabled : Bool) :
    backgroundRect g = Primitive.rect (.plain 0, .plain 0)
      (.cm g.fiducial_size.1, .cm g.fiducial_size.2) .white .white ∧
    ∀ p ∈ buildDrawing n tag g tag_id labelEnabled,
      p = backgroundRect g ∨ unitDiscipline p := by
  refine ⟨rfl, ?_⟩
  intro p hp
  rw [buildDrawing] at hp
  rcases List.mem_append.mp hp with h | h
  · rcases List.mem_append.mp h with h | h
    · rcases List.mem_cons.mp h with rfl | h
      · exact Or.inl rfl
      · rcases List.mem_cons.mp h with rfl | h
        · exact Or.inr (by simp [unitDiscipline, tagBlockRect, Scalar.isCm])
        · simp at h
    · rw [mem_lightModules_iff] at h
      obtain ⟨i, _, j, _, _, rfl⟩ := h
      exact Or.inr (by simp [unitDiscipline, Scalar.isCm])
  · refine Or.inr ?_
    cases labelEnabled
    · simp at h
    · rw [if_pos rfl] at h
      cases hG : g.label with
      | none => simp only [labelPrimitives, hG] at h; simp at h
      | some L =>
        simp only [labelPrimitives, hG] at h
        rcases List.mem_cons.mp h with rfl | h
        · simp [unitDiscipline, Scalar.isCm, Scalar.isEm]
        · rcases List.mem_cons.mp h with rfl | h
          · simp [unitDiscipline, Scalar.isCm]
          · rcases List.mem_cons.mp h with rfl | h
            · simp [unitDiscipline, Scalar.isCm, Scalar.isEm]
            · rcases List.mem_cons.mp h with rfl | h
              · simp [unitDiscipline, Scalar.isCm]
              · rcases List.mem_cons.mp h with rfl | h
                · simp [unitDiscipline, Scalar.isCm, Scalar.isEm]
                · rcases List.mem_cons.mp h with rfl | h
                  · simp [unitDiscipline, Scalar.isCm]
                  · simp at h

/-- Witness for the amended C8 on a concrete drawing: the background
equation instantiated, and the disjunction discharged at the tag-block
rectangle, a member of the concrete primitive list. -/
theorem unit_annotation_characterization_witness :
    (backgroundRect witnessGeometry = Primitive.rect (.plain 0, .plain 0)
      (.cm witnessGeometry.fiducial_size.1, .cm witnessGeometry.fiducial_size.2)
      .white .white) ∧
    (tagBlockRect 1 witnessGeometry = backgroundRect witnessGeometry ∨
      unitDiscipline (tagBlockRect 1 witnessGeometry)) :=
  ⟨(unit_annotation_characterization 1 witnessTag witnessGeometry 7 true).1,
   (unit_annotation_characterization 1 witnessTag witnessGeometry 7 true).2
     (tagBlockRect 1 witnessGeometry) (by simp [buildDrawing])⟩

end AprilTag
